import Mathlib

/-!
A shallow embedding of `src/Stepper.js`, a Node.js port of the Arduino
Stepper library driving a 2-, 4- or 5-wire stepper motor.

Modelling conventions:
* JavaScript numbers are modelled exactly: finite values as rationals `ℚ`
  (integer-valued fields such as `step_number` as `ℤ`), with the special
  values `Infinity`, `-Infinity` and `NaN` kept as separate constructors of
  `JSNum` where they can actually arise (`step_delay`).
* The external `onoff` GPIO collaborator is abstracted away: a pin write
  `digitalWrite(this.motor_pin_i, v)` is recorded as the pair `(i, v)` of
  the pin slot (1..5) and the written level, and one `stepMotor` call
  yields one list of such pairs (one write batch).
* The external clock `micros()` is abstracted as a function `ℕ → ℚ` giving
  the value returned by the n-th read, and the busy-wait loop in `step` is
  given explicit fuel bounding the number of clock polls, so that every
  definition is a total function.
* `this.step_delay` is left undefined by the constructor in the source;
  the only place it can flow before `setSpeed` is the `>=` comparison in
  `step`, where `undefined` behaves exactly like `NaN`, so the initial
  value is modelled as `JSNum.nan`.
-/

namespace StepperJS

/-- JavaScript number values as the driver can produce them: finite values
as exact rationals, with the infinities and NaN kept separate. -/
inductive JSNum where
  | num (q : ℚ)
  | posInf
  | negInf
  | nan
deriving DecidableEq

/-- JavaScript division `a / b` on `JSNum`, including the division-by-zero
and infinite cases (signed zeros are collapsed to `0`). -/
def JSNum.div : JSNum → JSNum → JSNum
  | JSNum.nan, _ => JSNum.nan
  | _, JSNum.nan => JSNum.nan
  | JSNum.posInf, JSNum.posInf => JSNum.nan
  | JSNum.posInf, JSNum.negInf => JSNum.nan
  | JSNum.negInf, JSNum.posInf => JSNum.nan
  | JSNum.negInf, JSNum.negInf => JSNum.nan
  | JSNum.posInf, JSNum.num b => if 0 ≤ b then JSNum.posInf else JSNum.negInf
  | JSNum.negInf, JSNum.num b => if 0 ≤ b then JSNum.negInf else JSNum.posInf
  | JSNum.num _, JSNum.posInf => JSNum.num 0
  | JSNum.num _, JSNum.negInf => JSNum.num 0
  | JSNum.num a, JSNum.num b =>
      if b = 0 then
        if a = 0 then JSNum.nan else if 0 < a then JSNum.posInf else JSNum.negInf
      else JSNum.num (a / b)

/-- JavaScript comparison `a >= b` on `JSNum`: any comparison involving
NaN (or `undefined`) is false. -/
def JSNum.ge : JSNum → JSNum → Bool
  | JSNum.nan, _ => false
  | _, JSNum.nan => false
  | JSNum.posInf, _ => true
  | _, JSNum.posInf => false
  | _, JSNum.negInf => true
  | JSNum.negInf, _ => false
  | JSNum.num a, JSNum.num b => decide (b ≤ a)

/-- Pin level constant `HIGH = 1` from the source. -/
def HIGH : ℕ := 1

/-- Pin level constant `LOW = 0` from the source. -/
def LOW : ℕ := 0

/-- One batch of pin writes produced by a single `stepMotor` call: pairs of
pin slot (1..5) and written level, in source order. -/
abbrev Batch := List (ℕ × ℕ)

/-- The mutable state of a `Stepper` instance, with the fields assigned in
the source constructor.  `motor_pin_i = some p` means the field holds a
GPIO handle for BCM pin `p`; `none` means the field was never assigned. -/
structure Stepper where
  pin_count : ℕ
  number_of_steps : ℤ
  step_number : ℤ
  direction : ℤ
  last_step_time : ℚ
  step_delay : JSNum
  motor_pin_1 : Option ℕ
  motor_pin_2 : Option ℕ
  motor_pin_3 : Option ℕ
  motor_pin_4 : Option ℕ
  motor_pin_5 : Option ℕ
deriving DecidableEq

/-- The source constructor: pins 1 and 2 are always wrapped, `pin_count`
starts at 2, becomes 4 when pins 3 and 4 are both non-null, and becomes 5
when pin 5 is non-null (regardless of pins 3 and 4); state counters are
zeroed and `step_delay` is left undefined (modelled as NaN). -/
def construct (number_of_steps : ℤ) (p1 p2 p3 p4 p5 : Option ℕ) : Stepper where
  pin_count := if p5.isSome then 5 else if p3.isSome && p4.isSome then 4 else 2
  number_of_steps := number_of_steps
  step_number := 0
  direction := 0
  last_step_time := 0
  step_delay := JSNum.nan
  motor_pin_1 := p1
  motor_pin_2 := p2
  motor_pin_3 := if p3.isSome && p4.isSome then p3 else none
  motor_pin_4 := if p3.isSome && p4.isSome then p4 else none
  motor_pin_5 := if p5.isSome then p5 else none

/-- `setSpeed(speed)`: `this.step_delay = 60 * 1000 * 1000 / this.number_of_steps / speed`
with JavaScript division semantics; no validation is performed. -/
def setSpeed (speed : ℚ) (s : Stepper) : Stepper :=
  { s with
    step_delay :=
      ((JSNum.num (60 * 1000 * 1000)).div
        (JSNum.num (s.number_of_steps : ℚ))).div (JSNum.num speed) }

/-- `stepMotor(thisStep)`: the pin writes performed for a given step index,
transcribed from the three `switch` statements in the source; a fall-through
index with no `case` produces no writes. -/
def stepMotorWrites (pc : ℕ) (thisStep : ℤ) : Batch :=
  (if pc = 2 then
    if thisStep = 0 then [(1, LOW), (2, HIGH)]
    else if thisStep = 1 then [(1, HIGH), (2, HIGH)]
    else if thisStep = 2 then [(1, HIGH), (2, LOW)]
    else if thisStep = 3 then [(1, LOW), (2, LOW)]
    else []
  else []) ++
  (if pc = 4 then
    if thisStep = 0 then [(1, HIGH), (2, LOW), (3, LOW), (4, LOW)]
    else if thisStep = 1 then [(1, HIGH), (2, HIGH), (3, LOW), (4, LOW)]
    else if thisStep = 2 then [(1, LOW), (2, HIGH), (3, LOW), (4, LOW)]
    else if thisStep = 3 then [(1, LOW), (2, HIGH), (3, HIGH), (4, LOW)]
    else if thisStep = 4 then [(1, LOW), (2, LOW), (3, HIGH), (4, LOW)]
    else if thisStep = 5 then [(1, LOW), (2, LOW), (3, HIGH), (4, HIGH)]
    else if thisStep = 6 then [(1, LOW), (2, LOW), (3, LOW), (4, HIGH)]
    else if thisStep = 7 then [(1, HIGH), (2, LOW), (3, LOW), (4, HIGH)]
    else []
  else []) ++
  (if pc = 5 then
    if thisStep = 0 then [(1, LOW), (2, HIGH), (3, HIGH), (4, LOW), (5, HIGH)]
    else if thisStep = 1 then [(1, LOW), (2, HIGH), (3, LOW), (4, LOW), (5, HIGH)]
    else if thisStep = 2 then [(1, LOW), (2, HIGH), (3, LOW), (4, HIGH), (5, HIGH)]
    else if thisStep = 3 then [(1, LOW), (2, HIGH), (3, LOW), (4, HIGH), (5, LOW)]
    else if thisStep = 4 then [(1, HIGH), (2, HIGH), (3, LOW), (4, HIGH), (5, LOW)]
    else if thisStep = 5 then [(1, HIGH), (2, LOW), (3, LOW), (4, HIGH), (5, LOW)]
    else if thisStep = 6 then [(1, HIGH), (2, LOW), (3, HIGH), (4, HIGH), (5, LOW)]
    else if thisStep = 7 then [(1, HIGH), (2, LOW), (3, HIGH), (4, LOW), (5, LOW)]
    else if thisStep = 8 then [(1, HIGH), (2, LOW), (3, HIGH), (4, LOW), (5, HIGH)]
    else if thisStep = 9 then [(1, LOW), (2, LOW), (3, HIGH), (4, LOW), (5, HIGH)]
    else []
  else [])

/-- The step index passed to `stepMotor` by `step`: `step_number % 10` for a
5-wire motor, `step_number % 8` otherwise, with JavaScript `%` (truncating
remainder, `Int.tmod`). -/
def stepIndex (s : Stepper) : ℤ :=
  if s.pin_count = 5 then Int.tmod s.step_number 10 else Int.tmod s.step_number 8

/-- The body of the delay-satisfied branch of the polling loop in `step`:
record `last_step_time = now`, then increment `step_number` and wrap it to
`0` on reaching `number_of_steps` (forward), or reload `number_of_steps`
at `0` and decrement (reverse). -/
def oneStepUpdate (now : ℚ) (s : Stepper) : Stepper :=
  if s.direction = 1 then
    { s with
      last_step_time := now,
      step_number :=
        if s.step_number + 1 = s.number_of_steps then 0 else s.step_number + 1 }
  else
    { s with
      last_step_time := now,
      step_number :=
        (if s.step_number = 0 then s.number_of_steps else s.step_number) - 1 }

/-- The `while (steps_left > 0)` polling loop of `step`.  `clock n` is the
value returned by the n-th `micros()` read, and `fuel` bounds the number of
polls so the busy-wait is total.  The result is the final driver state, the
remaining `steps_left` (0 unless fuel ran out), and the list of write
batches of the performed step transitions, in order. -/
def stepLoop : ℕ → (ℕ → ℚ) → ℕ → Stepper → Stepper × ℕ × List Batch
  | 0, _, steps_left, s => (s, steps_left, [])
  | fuel + 1, clock, steps_left, s =>
    if steps_left = 0 then (s, 0, [])
    else
      if JSNum.ge (JSNum.num (clock 0 - s.last_step_time)) s.step_delay then
        let s' := oneStepUpdate (clock 0) s
        let r := stepLoop fuel (fun j => clock (j + 1)) (steps_left - 1) s'
        (r.1, r.2.1, stepMotorWrites s'.pin_count (stepIndex s') :: r.2.2)
      else
        stepLoop fuel (fun j => clock (j + 1)) steps_left s

/-- The direction assignments at the top of `step`: `direction = 1` when the
argument is positive, `direction = 0` when it is negative, unchanged when it
is zero. -/
def setDir (steps_to_move : ℤ) (s : Stepper) : Stepper :=
  if 0 < steps_to_move then { s with direction := 1 }
  else if steps_to_move < 0 then { s with direction := 0 }
  else s

/-- `step(steps_to_move)` (the `move` operation): take the absolute value,
set the direction from the sign, then run the polling loop. -/
def step (clock : ℕ → ℚ) (fuel : ℕ) (steps_to_move : ℤ) (s : Stepper) :
    Stepper × ℕ × List Batch :=
  stepLoop fuel clock steps_to_move.natAbs (setDir steps_to_move s)

/-- Forward position update: `p + 1`, wrapping to `0` at `nos`. -/
def posFwd (nos p : ℤ) : ℤ := if p + 1 = nos then 0 else p + 1

/-- Reverse position update: reload `nos` when at `0`, then decrement. -/
def posBwd (nos p : ℤ) : ℤ := (if p = 0 then nos else p) - 1

/-- States reachable from a freshly constructed driver with
`number_of_steps = nos` by any interleaving of the mutations the source can
perform: `setSpeed` calls, the direction assignment on entry to `step`, and
single step transitions of the polling loop (at an arbitrary clock value).
Every state occurring before or after a step transition in any sequence of
`step` calls is of this form. -/
inductive Reachable (nos : ℤ) : Stepper → Prop
  | init (p1 p2 p3 p4 p5 : Option ℕ) : Reachable nos (construct nos p1 p2 p3 p4 p5)
  | speed (rpm : ℚ) (s : Stepper) : Reachable nos s → Reachable nos (setSpeed rpm s)
  | moveEntry (k : ℤ) (s : Stepper) : Reachable nos s → Reachable nos (setDir k s)
  | transition (now : ℚ) (s : Stepper) :
      Reachable nos s → Reachable nos (oneStepUpdate now s)

/-! ### Basic lemmas about the embedded operations -/

lemma stepLoop_zero (fuel : ℕ) (clock : ℕ → ℚ) (s : Stepper) :
    stepLoop fuel clock 0 s = (s, 0, []) := by
  cases fuel <;> simp [stepLoop]

lemma setDir_zero (s : Stepper) : setDir 0 s = s := by
  simp [setDir]

lemma step_zero (clock : ℕ → ℚ) (fuel : ℕ) (s : Stepper) :
    step clock fuel 0 s = (s, 0, []) := by
  simp [step, setDir_zero, stepLoop_zero]

lemma setDir_step_delay (k : ℤ) (s : Stepper) : (setDir k s).step_delay = s.step_delay := by
  unfold setDir; split_ifs <;> rfl

lemma setDir_last_step_time (k : ℤ) (s : Stepper) :
    (setDir k s).last_step_time = s.last_step_time := by
  unfold setDir; split_ifs <;> rfl

lemma setDir_step_number (k : ℤ) (s : Stepper) :
    (setDir k s).step_number = s.step_number := by
  unfold setDir; split_ifs <;> rfl

lemma setDir_number_of_steps (k : ℤ) (s : Stepper) :
    (setDir k s).number_of_steps = s.number_of_steps := by
  unfold setDir; split_ifs <;> rfl

lemma setDir_pin_count (k : ℤ) (s : Stepper) :
    (setDir k s).pin_count = s.pin_count := by
  unfold setDir; split_ifs <;> rfl

lemma setDir_pos (k : ℤ) (hk : 0 < k) (s : Stepper) : (setDir k s).direction = 1 := by
  unfold setDir; rw [if_pos hk]

lemma setDir_neg (k : ℤ) (hk : k < 0) (s : Stepper) : (setDir k s).direction = 0 := by
  unfold setDir; rw [if_neg (by omega), if_pos hk]

/-- The step-transition body rewritten through the wrap-around helpers. -/
lemma oneStepUpdate_eq (now : ℚ) (s : Stepper) :
    oneStepUpdate now s =
      { s with
        last_step_time := now,
        step_number :=
          if s.direction = 1 then posFwd s.number_of_steps s.step_number
          else posBwd s.number_of_steps s.step_number } := by
  unfold oneStepUpdate posFwd posBwd
  split_ifs <;> rfl

lemma posFwd_bounds (nos p : ℤ) (hp : 0 ≤ p) (hlt : p < nos) :
    0 ≤ posFwd nos p ∧ posFwd nos p < nos := by
  unfold posFwd; split_ifs <;> omega

lemma posBwd_bounds (nos p : ℤ) (hp : 0 ≤ p) (hlt : p < nos) :
    0 ≤ posBwd nos p ∧ posBwd nos p < nos := by
  unfold posBwd; split_ifs <;> omega

lemma posBwd_posFwd (nos p : ℤ) (hp : 0 ≤ p) (hlt : p < nos) :
    posBwd nos (posFwd nos p) = p := by
  unfold posFwd posBwd; split_ifs <;> omega

lemma posFwd_iterate_bounds (nos : ℤ) :
    ∀ (n : ℕ) (p : ℤ), 0 ≤ p → p < nos →
      0 ≤ (posFwd nos)^[n] p ∧ (posFwd nos)^[n] p < nos := by
  intro n
  induction n with
  | zero => intro p hp hlt; simpa using ⟨hp, hlt⟩
  | succ n ih =>
    intro p hp hlt
    rw [Function.iterate_succ_apply']
    obtain ⟨h1, h2⟩ := ih p hp hlt
    exact posFwd_bounds nos _ h1 h2

lemma posBwd_posFwd_iterate (nos : ℤ) :
    ∀ (n : ℕ) (p : ℤ), 0 ≤ p → p < nos →
      (posBwd nos)^[n] ((posFwd nos)^[n] p) = p := by
  intro n
  induction n with
  | zero => intro p hp hlt; simp
  | succ n ih =>
    intro p hp hlt
    rw [Function.iterate_succ_apply' (posFwd nos), Function.iterate_succ_apply (posBwd nos)]
    obtain ⟨h1, h2⟩ := posFwd_iterate_bounds nos n p hp hlt
    rw [posBwd_posFwd nos _ h1 h2]
    exact ih p hp hlt

/-- The position update selected by the current direction. -/
def stepFun (s : Stepper) : ℤ → ℤ :=
  if s.direction = 1 then posFwd s.number_of_steps else posBwd s.number_of_steps

lemma oneStepUpdate_fields (now : ℚ) (s : Stepper) :
    (oneStepUpdate now s).direction = s.direction ∧
    (oneStepUpdate now s).number_of_steps = s.number_of_steps ∧
    (oneStepUpdate now s).pin_count = s.pin_count ∧
    (oneStepUpdate now s).step_delay = s.step_delay ∧
    (oneStepUpdate now s).last_step_time = now ∧
    (oneStepUpdate now s).step_number = stepFun s s.step_number := by
  rw [oneStepUpdate_eq]
  refine ⟨rfl, rfl, rfl, rfl, rfl, ?_⟩
  simp only [stepFun, ite_apply]

lemma stepFun_oneStepUpdate (now : ℚ) (s : Stepper) :
    stepFun (oneStepUpdate now s) = stepFun s := by
  unfold stepFun
  rw [(oneStepUpdate_fields now s).1, (oneStepUpdate_fields now s).2.1]

/-- The invariant behind claim C1: every reachable state keeps its
`number_of_steps` and keeps `step_number` inside `[0, number_of_steps)`. -/
lemma reachable_invariant (nos : ℤ) (hnos : 0 < nos) :
    ∀ s, Reachable nos s →
      s.number_of_steps = nos ∧ 0 ≤ s.step_number ∧ s.step_number < nos := by
  intro s h
  induction h with
  | init p1 p2 p3 p4 p5 => exact ⟨rfl, le_refl 0, hnos⟩
  | speed rpm s _ ih => exact ih
  | moveEntry k s _ ih =>
    rw [setDir_number_of_steps, setDir_step_number]; exact ih
  | transition now s _ ih =>
    obtain ⟨h1, h2, h3⟩ := ih
    rw [oneStepUpdate_eq]
    refine ⟨h1, ?_⟩
    simp only [h1]
    split_ifs
    · exact posFwd_bounds nos s.step_number h2 (h1 ▸ h3)
    · exact posBwd_bounds nos s.step_number h2 (h1 ▸ h3)

/-- States produced by running the polling loop from a reachable state are
reachable: each loop iteration is either a pure poll or one transition. -/
lemma reachable_stepLoop (nos : ℤ) :
    ∀ (fuel : ℕ) (clock : ℕ → ℚ) (n : ℕ) (s : Stepper),
      Reachable nos s → Reachable nos (stepLoop fuel clock n s).1 := by
  intro fuel
  induction fuel with
  | zero => intro clock n s hs; simpa [stepLoop] using hs
  | succ fuel ih =>
    intro clock n s hs
    by_cases hn : n = 0
    · subst hn; simpa [stepLoop] using hs
    · simp only [stepLoop, if_neg hn]
      split
      · exact ih _ _ _ (Reachable.transition _ _ hs)
      · exact ih _ _ _ hs

/-- States produced by a whole `step` call from a reachable state are
reachable. -/
lemma reachable_step (nos : ℤ) (clock : ℕ → ℚ) (fuel : ℕ) (k : ℤ) (s : Stepper)
    (hs : Reachable nos s) : Reachable nos (step clock fuel k s).1 :=
  reachable_stepLoop nos fuel clock k.natAbs (setDir k s) (Reachable.moveEntry k s hs)

/-- Exact characterisation of the polling loop with a cooperative clock:
if every clock read is at least `step_delay` after the previous recorded
step time, the loop fires one transition per poll, so with `K` steps left
and fuel for `K + m` polls it performs exactly `K` transitions, returns
with `steps_left = 0`, and its state and write batches are obtained by
iterating the position update. -/
lemma stepLoop_exact (d : ℚ) :
    ∀ (K m : ℕ) (clock : ℕ → ℚ) (s : Stepper),
      s.step_delay = JSNum.num d →
      (∀ i, clock i + d ≤ clock (i + 1)) →
      s.last_step_time + d ≤ clock 0 →
      (stepLoop (K + m) clock K s).1 =
        { s with
          step_number := (stepFun s)^[K] s.step_number,
          last_step_time := if K = 0 then s.last_step_time else clock (K - 1) } ∧
      (stepLoop (K + m) clock K s).2.1 = 0 ∧
      (stepLoop (K + m) clock K s).2.2 =
        (List.range K).map (fun t =>
          stepMotorWrites s.pin_count
            (if s.pin_count = 5 then Int.tmod ((stepFun s)^[t + 1] s.step_number) 10
             else Int.tmod ((stepFun s)^[t + 1] s.step_number) 8)) := by
  intro K
  induction K with
  | zero =>
    intro m clock s hd hsucc h0
    rw [Nat.zero_add, stepLoop_zero]
    refine ⟨by simp, rfl, by simp⟩
  | succ K ih =>
    intro m clock s hd hsucc h0
    have hguard : JSNum.ge (JSNum.num (clock 0 - s.last_step_time)) s.step_delay = true := by
      rw [hd]
      simp only [JSNum.ge, decide_eq_true_eq]
      linarith
    have hd' : (oneStepUpdate (clock 0) s).step_delay = JSNum.num d := by
      rw [(oneStepUpdate_fields (clock 0) s).2.2.2.1, hd]
    have h0' : (oneStepUpdate (clock 0) s).last_step_time + d ≤ clock 1 := by
      rw [(oneStepUpdate_fields (clock 0) s).2.2.2.2.1]
      exact hsucc 0
    obtain ⟨ih1, ih2, ih3⟩ :=
      ih m (fun j => clock (j + 1)) (oneStepUpdate (clock 0) s) hd'
        (fun i => hsucc (i + 1)) h0'
    have hKm : (K + 1) + m = (K + m) + 1 := by omega
    rw [hKm]
    simp only [stepLoop, if_neg (Nat.succ_ne_zero K), hguard, if_true, Nat.add_sub_cancel]
    obtain ⟨hdir, hnos, hpc, -, hlast, hsn⟩ := oneStepUpdate_fields (clock 0) s
    refine ⟨?_, ih2, ?_⟩
    · rw [ih1, stepFun_oneStepUpdate, hsn, hdir, hnos, hpc, hlast, oneStepUpdate_eq,
        ← Function.iterate_succ_apply]
      cases K with
      | zero => simp
      | succ n => simp
    · rw [ih3, stepFun_oneStepUpdate, hsn, hpc]
      simp only [stepIndex, hpc, hsn, stepFun_oneStepUpdate, List.range_succ_eq_map,
        List.map_cons, List.map_map, Function.iterate_one, Function.comp,
        ← Function.iterate_succ_apply]
      simp [Function.comp_def, Nat.succ_eq_add_one, Function.iterate_one]

lemma setSpeed_step_delay (speed : ℚ) (s : Stepper)
    (hnos : 0 < s.number_of_steps) (hs : speed ≠ 0) :
    (setSpeed speed s).step_delay =
      JSNum.num (60 * 1000 * 1000 / (s.number_of_steps : ℚ) / speed) := by
  have h1 : ((s.number_of_steps : ℚ)) ≠ 0 := by
    exact_mod_cast hnos.ne'
  simp [setSpeed, JSNum.div, h1, hs]

lemma setSpeed_zero_step_delay (s : Stepper) (hnos : 0 < s.number_of_steps) :
    (setSpeed 0 s).step_delay = JSNum.posInf := by
  have h1 : ((s.number_of_steps : ℚ)) ≠ 0 := by
    exact_mod_cast hnos.ne'
  have h2 : (0 : ℚ) < 60 * 1000 * 1000 / (s.number_of_steps : ℚ) := by
    apply div_pos (by norm_num)
    exact_mod_cast hnos
  simp [setSpeed, JSNum.div, h1, h2, h2.ne']

/-! ### The claims -/

/-- Claim C1: for every wire count, every `steps_per_revolution > 0` and
every finite sequence of `move` calls starting from a freshly constructed
driver, `position` (`step_number`) stays in `[0, steps_per_revolution)`
before and after every step transition: every state reachable by the
mutations the source performs satisfies the bounds. -/
theorem c1_position_invariant (nos : ℤ) (hnos : 0 < nos) (s : Stepper)
    (hs : Reachable nos s) : 0 ≤ s.step_number ∧ s.step_number < nos :=
  (reachable_invariant nos hnos s hs).2

/-- Witness for C1 at a concrete reachable state: one forward transition
from a fresh 3-step driver. -/
theorem c1_position_invariant_witness :
    (0 : ℤ) < 3 ∧
    0 ≤ (oneStepUpdate 7 (construct 3 (some 17) (some 18) none none none)).step_number ∧
    (oneStepUpdate 7 (construct 3 (some 17) (some 18) none none none)).step_number < 3 :=
  ⟨by norm_num,
   c1_position_invariant 3 (by norm_num) _
     (Reachable.transition 7 _ (Reachable.init (some 17) (some 18) none none none))⟩

/-- Claim C3: the 4-wire switch maps step indices 0–7 to the eight listed
quadruples, and the 5-wire switch maps step indices 0–9 to the ten rows of
the C0..C4 commentary table, one level per output wire. -/
theorem c3_pattern_tables :
    (List.range 8).map (fun i => stepMotorWrites 4 (i : ℤ)) =
      [[(1, HIGH), (2, LOW), (3, LOW), (4, LOW)],
       [(1, HIGH), (2, HIGH), (3, LOW), (4, LOW)],
       [(1, LOW), (2, HIGH), (3, LOW), (4, LOW)],
       [(1, LOW), (2, HIGH), (3, HIGH), (4, LOW)],
       [(1, LOW), (2, LOW), (3, HIGH), (4, LOW)],
       [(1, LOW), (2, LOW), (3, HIGH), (4, HIGH)],
       [(1, LOW), (2, LOW), (3, LOW), (4, HIGH)],
       [(1, HIGH), (2, LOW), (3, LOW), (4, HIGH)]] ∧
    (List.range 10).map (fun i => stepMotorWrites 5 (i : ℤ)) =
      [[(1, LOW), (2, HIGH), (3, HIGH), (4, LOW), (5, HIGH)],
       [(1, LOW), (2, HIGH), (3, LOW), (4, LOW), (5, HIGH)],
       [(1, LOW), (2, HIGH), (3, LOW), (4, HIGH), (5, HIGH)],
       [(1, LOW), (2, HIGH), (3, LOW), (4, HIGH), (5, LOW)],
       [(1, HIGH), (2, HIGH), (3, LOW), (4, HIGH), (5, LOW)],
       [(1, HIGH), (2, LOW), (3, LOW), (4, HIGH), (5, LOW)],
       [(1, HIGH), (2, LOW), (3, HIGH), (4, HIGH), (5, LOW)],
       [(1, HIGH), (2, LOW), (3, HIGH), (4, LOW), (5, LOW)],
       [(1, HIGH), (2, LOW), (3, HIGH), (4, LOW), (5, HIGH)],
       [(1, LOW), (2, LOW), (3, HIGH), (4, LOW), (5, HIGH)]] := by
  constructor <;> decide

/-- Claim C4: for every `rpm > 0` (and positive `steps_per_revolution`),
`setSpeed` stores `60000000 / steps_per_revolution / rpm` as the step
delay. -/
theorem c4_set_speed_formula (s : Stepper) (rpm : ℚ)
    (h1 : 0 < s.number_of_steps) (h2 : 0 < rpm) :
    (setSpeed rpm s).step_delay =
      JSNum.num (60 * 1000 * 1000 / (s.number_of_steps : ℚ) / rpm) :=
  setSpeed_step_delay rpm s h1 h2.ne'

/-- Witness for C4: with `steps_per_revolution = 200` and `rpm = 60` the
stored delay is exactly 5000 microseconds. -/
theorem c4_set_speed_formula_witness :
    0 < (construct 200 (some 17) (some 18) none none none).number_of_steps ∧
    (0 : ℚ) < 60 ∧
    (setSpeed 60 (construct 200 (some 17) (some 18) none none none)).step_delay =
      JSNum.num 5000 := by
  refine ⟨by decide, by norm_num, ?_⟩
  rw [c4_set_speed_formula (construct 200 (some 17) (some 18) none none none) 60
    (by decide) (by norm_num)]
  simp [construct]
  norm_num

/-- Counterexample to C6 as stated: `setSpeed (-1)` does not fail and does
not leave the previously stored delay unchanged — it overwrites 5000 with
-300000. -/
theorem c6_counterexample :
    (setSpeed 60 (construct 200 (some 17) (some 18) none none none)).step_delay =
      JSNum.num 5000 ∧
    (setSpeed (-1) (setSpeed 60 (construct 200 (some 17) (some 18) none none
      none))).step_delay = JSNum.num (-300000) ∧
    (setSpeed (-1) (setSpeed 60 (construct 200 (some 17) (some 18) none none
      none))).step_delay ≠
      (setSpeed 60 (construct 200 (some 17) (some 18) none none none)).step_delay := by
  have e1 : (setSpeed 60 (construct 200 (some 17) (some 18) none none
      none)).step_delay = JSNum.num 5000 := by
    rw [setSpeed_step_delay 60 _ (by decide) (by norm_num)]
    simp [construct]
    norm_num
  have e2 : (setSpeed (-1) (setSpeed 60 (construct 200 (some 17) (some 18) none none
      none))).step_delay = JSNum.num (-300000) := by
    rw [setSpeed_step_delay (-1) _ (by decide) (by norm_num)]
    simp [setSpeed, construct]
    norm_num
  refine ⟨e1, e2, ?_⟩
  rw [e1, e2]
  simp
  norm_num

/-- Claim C6 (amended): `setSpeed` performs no validation and always
overwrites the delay: with a positive `steps_per_revolution`, `rpm = 0`
stores `Infinity` (JavaScript division by zero) and any `rpm < 0` stores
the negative value `60000000 / steps_per_revolution / rpm`. -/
theorem c6_set_speed_no_validation (s : Stepper) (h : 0 < s.number_of_steps) :
    (setSpeed 0 s).step_delay = JSNum.posInf ∧
    ∀ rpm : ℚ, rpm < 0 →
      (setSpeed rpm s).step_delay =
        JSNum.num (60 * 1000 * 1000 / (s.number_of_steps : ℚ) / rpm) ∧
      60 * 1000 * 1000 / (s.number_of_steps : ℚ) / rpm < 0 := by
  refine ⟨setSpeed_zero_step_delay s h, fun rpm hrpm => ⟨setSpeed_step_delay rpm s h hrpm.ne, ?_⟩⟩
  have hq : (0 : ℚ) < 60 * 1000 * 1000 / (s.number_of_steps : ℚ) := by
    apply div_pos (by norm_num)
    exact_mod_cast h
  exact div_neg_of_pos_of_neg hq hrpm

/-- Witness for the amended C6: `setSpeed 0` on a 200-step driver stores
`Infinity`. -/
theorem c6_set_speed_no_validation_witness :
    0 < (construct 200 (some 17) (some 18) none none none).number_of_steps ∧
    (setSpeed 0 (construct 200 (some 17) (some 18) none none none)).step_delay =
      JSNum.posInf :=
  ⟨by decide, (c6_set_speed_no_validation _ (by decide)).1⟩

/-- Counterexample to C7 as stated: supplying pin 5 but not pins 3 and 4
gives three output handles yet `pin_count = 5`; construction does not fail
and yields a degraded driver whose third and fourth pin fields were never
assigned. -/
theorem c7_counterexample :
    (construct 200 (some 17) (some 18) none none (some 19)).pin_count = 5 ∧
    (construct 200 (some 17) (some 18) none none (some 19)).motor_pin_3 = none ∧
    (construct 200 (some 17) (some 18) none none (some 19)).motor_pin_4 = none := by
  decide

/-- Claim C7 (amended): the constructor never fails and performs no
validation; `pin_count` is always one of 2, 4, 5, determined by which pins
are non-null (4 needs pins 3 and 4 both present, 5 needs pin 5), and the
pin-3/pin-5 fields are only assigned in the corresponding branches. -/
theorem c7_construct_no_validation (nos : ℤ) (p1 p2 p3 p4 p5 : Option ℕ) :
    ((construct nos p1 p2 p3 p4 p5).pin_count = 2 ∨
     (construct nos p1 p2 p3 p4 p5).pin_count = 4 ∨
     (construct nos p1 p2 p3 p4 p5).pin_count = 5) ∧
    (construct nos p1 p2 p3 p4 p5).pin_count =
      (if p5.isSome then 5 else if p3.isSome && p4.isSome then 4 else 2) ∧
    (construct nos p1 p2 p3 p4 p5).motor_pin_3 =
      (if p3.isSome && p4.isSome then p3 else none) ∧
    (construct nos p1 p2 p3 p4 p5).motor_pin_5 =
      (if p5.isSome then p5 else none) := by
  refine ⟨?_, rfl, rfl, rfl⟩
  by_cases h5 : p5.isSome = true <;> by_cases h34 : (p3.isSome && p4.isSome) = true <;>
    simp [construct, h5, h34]

/-- Claim C8: `move(0)` performs zero pin writes, returns immediately, and
leaves the entire state — including `position`, `last_step_time_micros`
and the carried-over `direction` — unchanged. -/
theorem c8_move_zero_noop (clock : ℕ → ℚ) (fuel : ℕ) (s : Stepper) :
    step clock fuel 0 s = (s, 0, []) :=
  step_zero clock fuel s

/-- Claim C10: immediately after construction, `position = 0`,
`last_step_time_micros = 0` and `direction = 0` (the REVERSE encoding),
and a first `move(0)` leaves `direction` at that value. -/
theorem c10_initial_state (nos : ℤ) (p1 p2 p3 p4 p5 : Option ℕ)
    (clock : ℕ → ℚ) (fuel : ℕ) :
    (construct nos p1 p2 p3 p4 p5).step_number = 0 ∧
    (construct nos p1 p2 p3 p4 p5).last_step_time = 0 ∧
    (construct nos p1 p2 p3 p4 p5).direction = 0 ∧
    (step clock fuel 0 (construct nos p1 p2 p3 p4 p5)).1.direction = 0 := by
  refine ⟨rfl, rfl, rfl, ?_⟩
  rw [step_zero]
  rfl

/-- Claim C2: for nonzero `steps_to_move` with `|steps_to_move| = K` and a
clock whose reads each advance by at least the (finite) step delay — the
first read already past `last_step_time + delay` — `move` performs exactly
`K` step transitions: `K` batches of output writes, the final recorded
step time being the `K`-th clock read, and returns with no steps left,
with fuel for only `K` polls required. -/
theorem c2_move_exact_transitions (clock : ℕ → ℚ) (fuel : ℕ) (k : ℤ) (s : Stepper)
    (d : ℚ) (hk : k ≠ 0)
    (hd : s.step_delay = JSNum.num d)
    (hsucc : ∀ i, clock i + d ≤ clock (i + 1))
    (h0 : s.last_step_time + d ≤ clock 0)
    (hfuel : k.natAbs ≤ fuel) :
    (step clock fuel k s).2.2.length = k.natAbs ∧
    (step clock fuel k s).2.1 = 0 ∧
    (step clock fuel k s).1.last_step_time = clock (k.natAbs - 1) := by
  have hf : fuel = k.natAbs + (fuel - k.natAbs) := by omega
  obtain ⟨h1, h2, h3⟩ :=
    stepLoop_exact d k.natAbs (fuel - k.natAbs) clock (setDir k s)
      (by rw [setDir_step_delay]; exact hd) hsucc
      (by rw [setDir_last_step_time]; exact h0)
  unfold step
  rw [hf, h3, h1, h2]
  refine ⟨by simp, rfl, ?_⟩
  have : k.natAbs ≠ 0 := Int.natAbs_ne_zero.mpr hk
  simp [this]

/-- Witness for C2: a 4-wire, 200-step driver at 60 rpm (delay 5000 µs)
with clock reads 5000, 10000, 15000, ... performs exactly 3 transitions on
`move(3)` with fuel 3, ending with `last_step_time = 15000`. -/
theorem c2_move_exact_transitions_witness :
    (3 : ℤ) ≠ 0 ∧
    (step (fun i => ((5000 * (i + 1) : ℕ) : ℚ)) 3 3
       (setSpeed 60 (construct 200 (some 17) (some 18) (some 19) (some 20)
         none))).2.2.length = 3 ∧
    (step (fun i => ((5000 * (i + 1) : ℕ) : ℚ)) 3 3
       (setSpeed 60 (construct 200 (some 17) (some 18) (some 19) (some 20)
         none))).2.1 = 0 ∧
    (step (fun i => ((5000 * (i + 1) : ℕ) : ℚ)) 3 3
       (setSpeed 60 (construct 200 (some 17) (some 18) (some 19) (some 20)
         none))).1.last_step_time = 15000 := by
  have hd : (setSpeed 60 (construct 200 (some 17) (some 18) (some 19) (some 20)
      none)).step_delay = JSNum.num 5000 := by
    rw [setSpeed_step_delay 60 _ (by decide) (by norm_num)]
    simp [construct]
    norm_num
  have hl : (setSpeed 60 (construct 200 (some 17) (some 18) (some 19) (some 20)
      none)).last_step_time = 0 := rfl
  obtain ⟨h1, h2, h3⟩ :=
    c2_move_exact_transitions (fun i => ((5000 * (i + 1) : ℕ) : ℚ)) 3 3
      (setSpeed 60 (construct 200 (some 17) (some 18) (some 19) (some 20) none))
      5000 (by norm_num) hd
      (by intro i; push_cast; ring_nf; linarith)
      (by rw [hl]; push_cast; norm_num)
      (by norm_num)
  refine ⟨by norm_num, ?_, h2, ?_⟩
  · simpa using h1
  · rw [h3]
    norm_num

lemma stepFun_eq_fwd (s : Stepper) (h : s.direction = 1) :
    stepFun s = posFwd s.number_of_steps := by
  unfold stepFun
  rw [if_pos h]

lemma stepFun_eq_bwd (s : Stepper) (h : s.direction ≠ 1) :
    stepFun s = posBwd s.number_of_steps := by
  unfold stepFun
  rw [if_neg h]

/-- Claim C9: for every `N ≥ 0` and `steps_per_revolution > N`, starting
from an in-range position, `move(N)` followed by `move(-N)` (with clocks
cooperating so every poll fires) returns `position` to its pre-call
value. -/
theorem c9_move_roundtrip (N : ℕ) (s : Stepper) (d : ℚ) (clock1 clock2 : ℕ → ℚ)
    (hd : s.step_delay = JSNum.num d)
    (hpos : 0 ≤ s.step_number) (hlt : s.step_number < s.number_of_steps)
    (hN : (N : ℤ) < s.number_of_steps)
    (h1succ : ∀ i, clock1 i + d ≤ clock1 (i + 1))
    (h10 : s.last_step_time + d ≤ clock1 0)
    (h2succ : ∀ i, clock2 i + d ≤ clock2 (i + 1))
    (h20 : (if N = 0 then s.last_step_time else clock1 (N - 1)) + d ≤ clock2 0) :
    (step clock2 N (-(N : ℤ)) (step clock1 N (N : ℤ) s).1).1.step_number
      = s.step_number := by
  rcases Nat.eq_zero_or_pos N with h00 | hNpos
  · subst h00
    simp only [Nat.cast_zero, neg_zero, step_zero]
  · have hNne : N ≠ 0 := hNpos.ne'
    have hend1 : ((N : ℤ)).natAbs = N := Int.natAbs_ofNat N
    have hdir1 : (setDir (N : ℤ) s).direction = 1 :=
      setDir_pos _ (by exact_mod_cast hNpos) s
    have hf1 : stepFun (setDir (N : ℤ) s) = posFwd s.number_of_steps := by
      rw [stepFun_eq_fwd _ hdir1, setDir_number_of_steps]
    obtain ⟨a1, a2, a3⟩ :=
      stepLoop_exact d N 0 clock1 (setDir (N : ℤ) s)
        (by rw [setDir_step_delay]; exact hd) h1succ
        (by rw [setDir_last_step_time]; exact h10)
    rw [Nat.add_zero] at a1
    have hT_sn : (step clock1 N (N : ℤ) s).1.step_number =
        (posFwd s.number_of_steps)^[N] s.step_number := by
      show (stepLoop N clock1 ((N : ℤ)).natAbs (setDir (N : ℤ) s)).1.step_number = _
      rw [hend1, a1]
      simp [hf1, setDir_step_number]
    have hT_nos : (step clock1 N (N : ℤ) s).1.number_of_steps = s.number_of_steps := by
      show (stepLoop N clock1 ((N : ℤ)).natAbs (setDir (N : ℤ) s)).1.number_of_steps = _
      rw [hend1, a1]
      simp [setDir_number_of_steps]
    have hT_delay : (step clock1 N (N : ℤ) s).1.step_delay = JSNum.num d := by
      show (stepLoop N clock1 ((N : ℤ)).natAbs (setDir (N : ℤ) s)).1.step_delay = _
      rw [hend1, a1]
      simp [setDir_step_delay, hd]
    have hT_last : (step clock1 N (N : ℤ) s).1.last_step_time = clock1 (N - 1) := by
      show (stepLoop N clock1 ((N : ℤ)).natAbs (setDir (N : ℤ) s)).1.last_step_time = _
      rw [hend1, a1]
      simp [hNne]
    rw [if_neg hNne] at h20
    have hend2 : (-(N : ℤ)).natAbs = N := by
      rw [Int.natAbs_neg, hend1]
    have hdir2 : (setDir (-(N : ℤ)) (step clock1 N (N : ℤ) s).1).direction = 0 :=
      setDir_neg _ (by omega) _
    have hf2 : stepFun (setDir (-(N : ℤ)) (step clock1 N (N : ℤ) s).1) =
        posBwd s.number_of_steps := by
      rw [stepFun_eq_bwd _ (by rw [hdir2]; norm_num), setDir_number_of_steps, hT_nos]
    obtain ⟨b1, b2, b3⟩ :=
      stepLoop_exact d N 0 clock2 (setDir (-(N : ℤ)) (step clock1 N (N : ℤ) s).1)
        (by rw [setDir_step_delay]; exact hT_delay) h2succ
        (by rw [setDir_last_step_time, hT_last]; exact h20)
    rw [Nat.add_zero] at b1
    show (stepLoop N clock2 ((-(N : ℤ))).natAbs
        (setDir (-(N : ℤ)) (step clock1 N (N : ℤ) s).1)).1.step_number = _
    rw [hend2, b1]
    simp only [hf2, setDir_step_number, hT_sn]
    exact posBwd_posFwd_iterate s.number_of_steps N s.step_number hpos hlt

/-- Witness for C9: a 200-step driver at 60 rpm moves 3 steps forward and
3 steps back, with cooperating clocks, and ends at its initial position. -/
theorem c9_move_roundtrip_witness :
    ((3 : ℕ) : ℤ) <
      (setSpeed 60 (construct 200 (some 17) (some 18) (some 19) (some 20)
        none)).number_of_steps ∧
    (step (fun i => ((5000 * i + 20000 : ℕ) : ℚ)) 3 (-((3 : ℕ) : ℤ))
       (step (fun i => ((5000 * (i + 1) : ℕ) : ℚ)) 3 ((3 : ℕ) : ℤ)
         (setSpeed 60 (construct 200 (some 17) (some 18) (some 19) (some 20)
           none))).1).1.step_number =
      (setSpeed 60 (construct 200 (some 17) (some 18) (some 19) (some 20)
        none)).step_number := by
  have hd : (setSpeed 60 (construct 200 (some 17) (some 18) (some 19) (some 20)
      none)).step_delay = JSNum.num 5000 := by
    rw [setSpeed_step_delay 60 _ (by decide) (by norm_num)]
    simp [construct]
    norm_num
  refine ⟨by decide, ?_⟩
  exact c9_move_roundtrip 3
    (setSpeed 60 (construct 200 (some 17) (some 18) (some 19) (some 20) none))
    5000 (fun i => ((5000 * (i + 1) : ℕ) : ℚ)) (fun i => ((5000 * i + 20000 : ℕ) : ℚ))
    hd (by decide) (by decide) (by decide)
    (by intro i; push_cast; ring_nf; linarith)
    (by rw [show (setSpeed 60 (construct 200 (some 17) (some 18) (some 19)
        (some 20) none)).last_step_time = 0 from rfl]; push_cast; norm_num)
    (by intro i; push_cast; ring_nf; linarith)
    (by norm_num)

/-- Claim C5, evaluated at the failing input: the 2-wire switch covers only
indices 0–3 while `step` computes indices modulo 8, so pattern indices 4–7
produce no writes at all.  On a 2-wire, 8-step driver, `move(5)` (with a
cooperating clock) fires five transitions whose 4th and 5th write batches
are empty: coils are left unchanged on those steps. -/
theorem c5_two_wire_dead_indices :
    stepMotorWrites 2 0 = [(1, LOW), (2, HIGH)] ∧
    stepMotorWrites 2 1 = [(1, HIGH), (2, HIGH)] ∧
    stepMotorWrites 2 2 = [(1, HIGH), (2, LOW)] ∧
    stepMotorWrites 2 3 = [(1, LOW), (2, LOW)] ∧
    stepMotorWrites 2 4 = [] ∧
    stepMotorWrites 2 5 = [] ∧
    stepMotorWrites 2 6 = [] ∧
    stepMotorWrites 2 7 = [] ∧
    (step (fun i => ((1000 * (i + 1) : ℕ) : ℚ)) 5 5
       (setSpeed 7500 (construct 8 (some 17) (some 18) none none none))).2.2 =
      [[(1, HIGH), (2, HIGH)], [(1, HIGH), (2, LOW)], [(1, LOW), (2, LOW)], [], []] := by
  refine ⟨by decide, by decide, by decide, by decide, by decide, by decide, by decide,
    by decide, ?_⟩
  have hd : (setDir 5 (setSpeed 7500 (construct 8 (some 17) (some 18) none none
      none))).step_delay = JSNum.num 1000 := by
    rw [setDir_step_delay, setSpeed_step_delay 7500 _ (by decide) (by norm_num)]
    simp [construct]
    norm_num
  obtain ⟨-, -, h3⟩ :=
    stepLoop_exact 1000 5 0 (fun i => ((1000 * (i + 1) : ℕ) : ℚ))
      (setDir 5 (setSpeed 7500 (construct 8 (some 17) (some 18) none none none)))
      hd
      (by intro i; push_cast; ring_nf; linarith)
      (by rw [setDir_last_step_time,
          show (setSpeed 7500 (construct 8 (some 17) (some 18) none none
            none)).last_step_time = 0 from rfl]
          push_cast; norm_num)
  rw [Nat.add_zero] at h3
  show (stepLoop 5 (fun i => ((1000 * (i + 1) : ℕ) : ℚ)) ((5 : ℤ)).natAbs
      (setDir 5 (setSpeed 7500 (construct 8 (some 17) (some 18) none none
        none)))).2.2 = _
  rw [show ((5 : ℤ)).natAbs = 5 from rfl, h3]
  decide

end StepperJS
